import Mathlib

/-!
Verification of the SDA event-logged file store (the `database` package used by
the finalize worker and the admin API).  The Go methods on `SDAdb` are embedded
as pure functions over an explicit relational state `DBState`; each SQL
statement is translated to the corresponding list manipulation.  The retry
loops wrapping every mutating method are embedded as recursions that also
record the number of attempts made and the sleep durations taken, so that the
retry contract itself can be stated and checked.
-/

set_option maxHeartbeats 1000000

/-- Retry bound used by every retrying store method.  Modelled from the spec:
the constant's definition is outside the snapshot; the spec says "retries up to
`RetryTimes` (a small constant such as 5)" and the source comments every
back-off loop with "2, 4, 8, 16, 32 seconds between each retry event" (five
delays, `2 ^ count` for `count = 1..RetryTimes`), fixing the value at 5. -/
def RetryTimes : Nat := 5

/-- A row of `sda.files`. -/
structure FileRow where
  id : String
  submissionUser : String
  submissionFilePath : String
  stableId : Option String
  header : Option String
  archiveFilePath : Option String
  archiveFileSize : Option Int
  keyHash : Option String
  createdAt : Nat
deriving Repr, DecidableEq

/-- A row of `sda.file_event_log`; `rid` is the serial primary key, and
`startedAt` the insertion timestamp. -/
structure FileEventRow where
  rid : Nat
  fileId : String
  event : String
  correlationId : String
  userId : String
  details : String
  message : String
  startedAt : Nat
deriving Repr, DecidableEq

/-- A row of `sda.checksums`. -/
structure ChecksumRow where
  fileId : String
  source : String
  ctype : String
  value : String
deriving Repr, DecidableEq

/-- A row of `sda.datasets`; `did` is the serial primary key. -/
structure DatasetRow where
  did : Nat
  stableId : String
deriving Repr, DecidableEq

/-- A row of `sda.dataset_event_log`. -/
structure DatasetEventRow where
  rid : Nat
  datasetId : String
  event : String
  message : String
deriving Repr, DecidableEq

/-- The relational state of the `sda` schema, together with the serial
counters and the schema `Version` carried by the `SDAdb` handle. -/
structure DBState where
  version : Nat
  files : List FileRow
  fileEventLog : List FileEventRow
  checksums : List ChecksumRow
  datasets : List DatasetRow
  fileDataset : List (String × Nat)
  datasetEventLog : List DatasetEventRow
  encryptionKeys : List (String × String)
  nextLogId : Nat
  nextDatasetId : Nat
  nextFileId : Nat
deriving Repr, DecidableEq

/-- The empty database at schema version 4. -/
def emptyState : DBState :=
  { version := 4, files := [], fileEventLog := [], checksums := [], datasets := []
    fileDataset := [], datasetEventLog := [], encryptionKeys := []
    nextLogId := 0, nextDatasetId := 0, nextFileId := 0 }

/-! ### Hex encoding (Go `encoding/hex`) -/

/-- Lower-case hex digit for a value below 16, as produced by Go's
`hex.EncodeToString` (digit table `"0123456789abcdef"`). -/
def hexDigit (n : Nat) : Char :=
  if n < 10 then Char.ofNat (48 + n) else Char.ofNat (87 + n)

/-- Two-character encoding of one byte. -/
def hexEncodeByte (b : Nat) : List Char :=
  [hexDigit (b / 16), hexDigit (b % 16)]

/-- `hex.EncodeToString`: each byte becomes two lower-case hex characters. -/
def hexEncode (bs : List Nat) : String :=
  ⟨bs.flatMap hexEncodeByte⟩

/-- Value of one hex character (`hex.DecodeString` accepts both cases). -/
def hexDigitVal (c : Char) : Option Nat :=
  if 48 ≤ c.toNat ∧ c.toNat ≤ 57 then some (c.toNat - 48)
  else if 97 ≤ c.toNat ∧ c.toNat ≤ 102 then some (c.toNat - 87)
  else if 65 ≤ c.toNat ∧ c.toNat ≤ 70 then some (c.toNat - 55)
  else none

/-- `hex.DecodeString` over the character list: pairs of hex digits become
bytes; an odd length or a non-hex character is an error. -/
def hexDecodeChars : List Char → Option (List Nat)
  | [] => some []
  | [_] => none
  | c1 :: c2 :: rest =>
    match hexDigitVal c1, hexDigitVal c2, hexDecodeChars rest with
    | some hi, some lo, some t => some ((16 * hi + lo) :: t)
    | _, _, _ => none

/-- `hex.DecodeString`. -/
def hexDecode (s : String) : Option (List Nat) :=
  hexDecodeChars s.data

/-! ### Substring test (Go `strings.Contains`) -/

/-- Whether the first list starts the second. -/
def leadsWith : List Char → List Char → Bool
  | [], _ => true
  | _ :: _, [] => false
  | a :: as, b :: bs => a == b && leadsWith as bs

/-- Whether `needle` occurs inside the list. -/
def hasInfix (needle : List Char) : List Char → Bool
  | [] => leadsWith needle []
  | c :: cs => leadsWith needle (c :: cs) || hasInfix needle cs

/-- Go `strings.Contains hay needle`. -/
def strContains (hay needle : String) : Bool :=
  hasInfix needle.data hay.data

/-! ### An executable lexicographic comparison of strings

`String`'s own order is propositionally the lexicographic order on the
character lists, but its `Decidable` instance goes through `String.ltb`,
whose recursion the kernel cannot evaluate; the sort in `ListActiveUsers`
therefore uses this structurally recursive comparator, which is proved
equivalent to `≤` below. -/

/-- Lexicographic `≤` on character lists. -/
def charListLeb : List Char → List Char → Bool
  | [], _ => true
  | _ :: _, [] => false
  | a :: as, b :: bs => if a < b then true else if b < a then false else charListLeb as bs

/-- Lexicographic `≤` on strings. -/
def strLeb (a b : String) : Bool :=
  charListLeb a.data b.data

/-! ### The two retry-loop shapes

Every mutating `SDAdb` method is a thin outer loop around an inner
single-attempt method.  The source uses two loop shapes:

* `for count == 0 || (err != nil && count < RetryTimes) { err = inner(); count++ }`
  — retry immediately, no sleeping (e.g. `UpdateFileEventLog`, `StoreHeader`,
  `SetArchived`, `SetVerified`, `GetFileStatus`, `GetHeader`);
* `for count := 1; count <= RetryTimes; count++ { err = inner(); if err == nil || stop(err) { break }; sleep(2^count) }`
  — back off 2, 4, 8, 16, 32 seconds (e.g. `SetAccessionID`,
  `MapFilesToDataset`, `UpdateDatasetEvent`, `AddKeyHash`, `GetUserFiles`).

The embedding threads the database state through the attempts and records the
attempt count and the sleeps taken.  The extra fuel argument only mirrors the
loop bound so the recursion is structural; it never runs out (the loop index
reaches `RetryTimes` first). -/

/-- Whether an `Except` is an error (Go `err != nil`). -/
def exceptIsErr : Except String α → Bool
  | .ok _ => false
  | .error _ => true

/-- Whether an `Except` is a success (Go `err == nil`). -/
def exceptIsOk : Except String α → Bool
  | .ok _ => true
  | .error _ => false

instance {ε α : Type} [DecidableEq ε] [DecidableEq α] : DecidableEq (Except ε α) :=
  fun x y =>
    match x, y with
    | .error e, .error f => decidable_of_iff (e = f) (by simp)
    | .error _, .ok _ => isFalse (by simp)
    | .ok _, .error _ => isFalse (by simp)
    | .ok a, .ok b => decidable_of_iff (a = b) (by simp)

/-- Result of an outer retrying method: final state, final result, number of
invocations of the inner method, and the list of back-off sleeps (seconds). -/
structure StTrace (α : Type) where
  state : DBState
  result : Except String α
  attempts : Nat
  sleeps : List Nat
deriving Repr, DecidableEq

/-- Loop body of the immediate-retry shape, entered after the first attempt:
continue while the previous attempt failed and fewer than `RetryTimes`
attempts were made. -/
def retryImmediateGo (attempt : Nat → DBState → DBState × Except String α) :
    Nat → Nat → DBState → Except String α → StTrace α
  | 0, count, s, prev => ⟨s, prev, count, []⟩
  | fuel + 1, count, s, prev =>
    if exceptIsErr prev ∧ count < RetryTimes then
      retryImmediateGo attempt fuel (count + 1) (attempt count s).1 (attempt count s).2
    else ⟨s, prev, count, []⟩

/-- The immediate-retry outer loop
(`for count == 0 || (err != nil && count < RetryTimes)`). -/
def retryImmediate (attempt : Nat → DBState → DBState × Except String α)
    (s : DBState) : StTrace α :=
  retryImmediateGo attempt RetryTimes 1 (attempt 0 s).1 (attempt 0 s).2

/-- Loop body of the back-off shape: attempt `count`, break on success or on a
definitive error (`stop`), otherwise sleep `2 ^ count` seconds and continue
while `count ≤ RetryTimes`. -/
def retryBackoffGo (attempt : Nat → DBState → DBState × Except String α)
    (stop : String → Bool) :
    Nat → Nat → DBState → Except String α → List Nat → StTrace α
  | 0, count, s, prev, sleeps => ⟨s, prev, count - 1, sleeps⟩
  | fuel + 1, count, s, prev, sleeps =>
    if count ≤ RetryTimes then
      match (attempt count s).2 with
      | .ok a => ⟨(attempt count s).1, .ok a, count, sleeps⟩
      | .error e =>
        if stop e then ⟨(attempt count s).1, .error e, count, sleeps⟩
        else retryBackoffGo attempt stop fuel (count + 1) (attempt count s).1
          (.error e) (sleeps ++ [2 ^ count])
    else ⟨s, prev, count - 1, sleeps⟩

/-- The back-off outer loop (`for count := 1; count <= RetryTimes; count++`
with `time.Sleep(2^count seconds)` after every non-definitive failure). -/
def retryBackoff (attempt : Nat → DBState → DBState × Except String α)
    (stop : String → Bool) (s : DBState) : StTrace α :=
  retryBackoffGo attempt stop (RetryTimes + 1) 1 s (.error "") []

/-! ### Inner single-attempt methods -/

/-- Append one row to `sda.file_event_log` (`updateFileEventLog`).  The
statement is a plain `INSERT ... VALUES`, so when it executes it reports one
affected row and the zero-rows guard in the source does not fire. -/
def updateFileEventLog (s : DBState)
    (fileUUID event corrID user details message : String) :
    DBState × Except String Unit :=
  ({ s with
      fileEventLog := s.fileEventLog ++
        [⟨s.nextLogId, fileUUID, event, corrID, user, details, message, s.nextLogId⟩]
      nextLogId := s.nextLogId + 1 }, .ok ())

/-- `storeHeader`: `UPDATE sda.files SET header = hex(header) WHERE id = $2`;
zero affected rows is surfaced as an error. -/
def storeHeader (s : DBState) (header : List Nat) (id : String) :
    DBState × Except String Unit :=
  if s.files.any (fun f => f.id == id) then
    ({ s with files := s.files.map (fun f =>
        if f.id == id then { f with header := some (hexEncode header) } else f) },
      .ok ())
  else
    (s, .error "something went wrong with the query zero rows were changed")

/-- Row lookup of `getHeader`: `SELECT header FROM sda.files WHERE id = $1`,
scanned into a string (a NULL header is a scan error) and hex-decoded. -/
def findHeader (files : List FileRow) (fileID : String) : Except String (List Nat) :=
  match files.find? (fun f => f.id == fileID) with
  | none => .error "sql: no rows in result set"
  | some f =>
    match f.header with
    | none => .error "sql: Scan error converting NULL to string is unsupported"
    | some hx =>
      match hexDecode hx with
      | none => .error "encoding/hex: invalid byte"
      | some bs => .ok bs

/-- `getHeader`. -/
def getHeader (s : DBState) (fileID : String) : Except String (List Nat) :=
  findHeader s.files fileID

/-- Largest element of an event-log fragment by the given key, as selected by
`ORDER BY key DESC LIMIT 1`. -/
def maxBy (key : FileEventRow → Nat) : List FileEventRow → Option FileEventRow
  | [] => none
  | r :: rs =>
    match maxBy key rs with
    | none => some r
    | some m => if key r < key m then some m else some r

/-- `getFileStatus`: `SELECT event FROM sda.file_event_log WHERE
correlation_id = $1 ORDER BY id DESC LIMIT 1`. -/
def getFileStatus (s : DBState) (corrID : String) : Except String String :=
  match maxBy (·.rid) (s.fileEventLog.filter (fun r => r.correlationId == corrID)) with
  | none => .error "sql: no rows in result set"
  | some r => .ok r.event

/-- `checkAccessionIDExists`: count rows with this stable id on this very
file, then rows with this stable id on any file. -/
def checkAccessionIDExists (s : DBState) (accessionID fileID : String) :
    Except String String :=
  if (s.files.filter (fun f => f.stableId == some accessionID && f.id == fileID)).length > 0
  then .ok "same"
  else if (s.files.filter (fun f => f.stableId == some accessionID)).length > 0
  then .ok "duplicate"
  else .ok ""

/-- `setAccessionID`: `UPDATE sda.files SET stable_id = $1 WHERE id = $2`;
zero affected rows is surfaced as an error. -/
def setAccessionID (s : DBState) (accessionID fileID : String) :
    DBState × Except String Unit :=
  if s.files.any (fun f => f.id == fileID) then
    ({ s with files := s.files.map (fun f =>
        if f.id == fileID then { f with stableId := some accessionID } else f) },
      .ok ())
  else
    (s, .error "something went wrong with the query zero rows were changed")

/-- The dataset insert executed before the transaction of
`mapFilesToDataset`: `INSERT INTO sda.datasets (stable_id) VALUES ($1)
ON CONFLICT DO NOTHING`.  Modelled from the spec: the schema is outside the
snapshot; per the spec a dataset row is created the first time the stable id
is seen, so the conflict target is the unique `stable_id`. -/
def insertDatasetRow (s : DBState) (datasetID : String) : DBState :=
  if s.datasets.any (fun d => d.stableId == datasetID) then s
  else { s with
    datasets := s.datasets ++ [⟨s.nextDatasetId, datasetID⟩]
    nextDatasetId := s.nextDatasetId + 1 }

/-- One mapping insert inside the transaction: `INSERT INTO sda.file_dataset
(file_id, dataset_id) SELECT $1, id FROM sda.datasets WHERE stable_id = $2
ON CONFLICT DO NOTHING`.  `committed` are the rows visible from before the
transaction, `pending` the rows inserted by the transaction so far.  Modelled
from the spec for the conflict target: `(file_id, dataset_id)` is unique. -/
def insertMappingRows (committed pending : List (String × Nat)) (fid : String)
    (datasets : List DatasetRow) (dsID : String) : List (String × Nat) :=
  datasets.foldl (fun acc d =>
    if d.stableId = dsID ∧ (fid, d.did) ∉ committed ++ acc then acc ++ [(fid, d.did)]
    else acc) pending

/-- The per-accession loop of `mapFilesToDataset`: resolve the accession to a
file id (`SELECT id FROM sda.files WHERE stable_id = $1`, a failed lookup
rolls the transaction back) and run the mapping insert. -/
def mapLoop (s1 : DBState) (dsID : String) :
    List String → List (String × Nat) → Except String (List (String × Nat))
  | [], pending => .ok pending
  | accessionID :: rest, pending =>
    match s1.files.find? (fun f => f.stableId == some accessionID) with
    | none => .error "sql: no rows in result set"
    | some f =>
      mapLoop s1 dsID rest (insertMappingRows s1.fileDataset pending f.id s1.datasets dsID)

/-- `mapFilesToDataset`: the dataset insert runs outside the transaction; the
accession lookups and mapping inserts run inside it; a failed lookup rolls
back the pending mapping rows and returns the error. -/
def mapFilesToDataset (s : DBState) (datasetID : String)
    (accessionIDs : List String) : DBState × Except String Unit :=
  let s1 := insertDatasetRow s datasetID
  match mapLoop s1 datasetID accessionIDs [] with
  | .error e => (s1, .error e)
  | .ok pending => ({ s1 with fileDataset := s1.fileDataset ++ pending }, .ok ())

/-- `updateDatasetEvent`: append one row to `sda.dataset_event_log` (a plain
`INSERT ... VALUES`, reporting one affected row when it executes). -/
def updateDatasetEvent (s : DBState) (datasetID status message : String) :
    DBState × Except String Unit :=
  ({ s with
      datasetEventLog := s.datasetEventLog ++
        [⟨s.nextLogId, datasetID, status, message⟩]
      nextLogId := s.nextLogId + 1 }, .ok ())

/-- `addKeyHash`: `INSERT INTO sda.encryption_keys ... ON CONFLICT DO
NOTHING`; zero affected rows means the key hash already existed. -/
def addKeyHash (s : DBState) (keyHash keyDescription : String) :
    DBState × Except String Unit :=
  if s.encryptionKeys.any (fun k => k.1 == keyHash) then
    (s, .error "key hash already exists or no rows were updated")
  else
    ({ s with encryptionKeys := s.encryptionKeys ++ [(keyHash, keyDescription)] }, .ok ())

/-- Append a file event row (used by the stored procedures below). -/
def appendEvent (s : DBState) (fid event corrID user details message : String) :
    DBState :=
  { s with
    fileEventLog := s.fileEventLog ++
      [⟨s.nextLogId, fid, event, corrID, user, details, message, s.nextLogId⟩]
    nextLogId := s.nextLogId + 1 }

/-- Modelled from the spec: the stored procedure `sda.register_file` is not in
the snapshot.  Per the spec it creates the file row if no row has this
`(submission_user, submission_file_path)` pair, always appends a `registered`
event, and returns the (possibly pre-existing) file id. -/
def registerFileProc (s : DBState) (uploadPath uploadUser : String) :
    String × DBState :=
  match s.files.find? (fun f =>
      f.submissionFilePath == uploadPath && f.submissionUser == uploadUser) with
  | some f => (f.id, appendEvent s f.id "registered" f.id uploadUser "" "")
  | none =>
    let fid := "file-" ++ toString s.nextFileId
    let s1 := { s with
      files := s.files ++
        [⟨fid, uploadUser, uploadPath, none, none, none, none, none, s.nextLogId⟩]
      nextFileId := s.nextFileId + 1 }
    (fid, appendEvent s1 fid "registered" fid uploadUser "" "")

/-- Archive metadata passed to `setArchived` / `setVerified`. -/
structure FileInfo where
  path : String
  size : Int
  checksum : String
  decryptedSize : Int
  decryptedChecksum : String
deriving Repr, DecidableEq

/-- Modelled from the spec: the stored procedure `sda.set_archived` is not in
the snapshot.  Per the spec it writes the archive path, size and checksum for
the file and appends the matching `archived` event. -/
def setArchivedProc (s : DBState) (file : FileInfo) (fileID corrID : String) :
    DBState × Except String Unit :=
  if s.files.any (fun f => f.id == fileID) then
    let s1 := { s with
      files := s.files.map (fun f =>
        if f.id == fileID then
          { f with archiveFilePath := some file.path, archiveFileSize := some file.size }
        else f)
      checksums := s.checksums ++ [⟨fileID, "ARCHIVED", "SHA256", file.checksum⟩] }
    (appendEvent s1 fileID "archived" corrID "" "" "", .ok ())
  else
    (s, .error "sql: no rows in result set")

/-- Modelled from the spec: the stored procedure `sda.set_verified` is not in
the snapshot.  Per the spec it writes the decrypted size and checksum and
appends the matching `verified` event. -/
def setVerifiedProc (s : DBState) (file : FileInfo) (fileID corrID : String) :
    DBState × Except String Unit :=
  if s.files.any (fun f => f.id == fileID) then
    let s1 := { s with
      checksums := s.checksums ++
        [⟨fileID, "ARCHIVED", "SHA256", file.checksum⟩,
         ⟨fileID, "UNENCRYPTED", "SHA256", file.decryptedChecksum⟩] }
    (appendEvent s1 fileID "verified" corrID "" "" "", .ok ())
  else
    (s, .error "sql: no rows in result set")

/-! ### The queries of the admin API -/

/-- Latest event row of one file, as selected by the subquery
`SELECT DISTINCT ON (file_id) ... ORDER BY file_id, started_at DESC`. -/
def latestEventRow (s : DBState) (fid : String) : Option FileEventRow :=
  maxBy (·.startedAt) (s.fileEventLog.filter (fun r => r.fileId == fid))

/-- Whether `sda.file_dataset` holds a row whose file id matches no file: such
a row makes the `NOT IN (SELECT f.id FROM sda.files f RIGHT JOIN
sda.file_dataset d ...)` list contain a SQL NULL, so the `NOT IN` predicate
never holds and the surrounding query returns no rows. -/
def danglingFD (s : DBState) : Bool :=
  s.fileDataset.any (fun m => !(s.files.any (fun f => f.id == m.1)))

/-- One result row of `getUserFiles` as delivered to `rows.Scan`. -/
structure SubmissionFileInfo where
  inboxPath : String
  status : String
  createAt : Nat
deriving Repr, DecidableEq

/-- The scan loop of `getUserFiles`: a NULL latest event does not fit the
string field and aborts the whole call. -/
def scanRows : List (String × Option String × Nat) →
    Except String (List SubmissionFileInfo)
  | [] => .ok []
  | (_, none, _) :: _ =>
    .error "sql: Scan error converting NULL to string is unsupported"
  | (p, some ev, c) :: rest => (scanRows rest).map (fun l => ⟨p, ev, c⟩ :: l)

/-- `getUserFiles`: the user's files that are in no dataset, each with its
latest event. -/
def getUserFiles (s : DBState) (userID : String) :
    Except String (List SubmissionFileInfo) :=
  if danglingFD s then .ok []
  else
    scanRows ((s.files.filter (fun f =>
        f.submissionUser == userID &&
        !(s.fileDataset.any (fun m => m.1 == f.id)))).map
      (fun f => (f.submissionFilePath, (latestEventRow s f.id).map (·.event), f.createdAt)))

/-- `ListActiveUsers`: `SELECT DISTINCT submission_user FROM sda.files WHERE
id NOT IN (...) ORDER BY submission_user ASC` (this method has no retry
loop in the source). -/
def ListActiveUsers (s : DBState) : Except String (List String) :=
  if danglingFD s then .ok []
  else .ok (List.insertionSort (fun a b => strLeb a b = true)
    (((s.files.filter (fun f =>
        !(s.fileDataset.any (fun m => m.1 == f.id)))).map (·.submissionUser)).dedup))

/-! ### Outer (retrying) methods -/

/-- `RegisterFile`: refuse below schema version 4, otherwise call
`sda.register_file` (no retry loop in the source). -/
def RegisterFile (s : DBState) (uploadPath uploadUser : String) :
    DBState × Except String String :=
  if s.version < 4 then
    (s, .error "database schema v4 required for RegisterFile()")
  else
    let (fid, s') := registerFileProc s uploadPath uploadUser
    (s', .ok fid)

/-- Outer `UpdateFileEventLog` (immediate-retry shape). -/
def UpdateFileEventLog (s : DBState)
    (fileUUID event corrID user details message : String) : StTrace Unit :=
  retryImmediate (fun _ t => updateFileEventLog t fileUUID event corrID user details message) s

/-- Outer `StoreHeader` (immediate-retry shape). -/
def StoreHeader (s : DBState) (header : List Nat) (id : String) : StTrace Unit :=
  retryImmediate (fun _ t => storeHeader t header id) s

/-- Outer `SetArchived` (immediate-retry shape). -/
def SetArchived (s : DBState) (file : FileInfo) (fileID corrID : String) : StTrace Unit :=
  retryImmediate (fun _ t => setArchivedProc t file fileID corrID) s

/-- Outer `SetVerified` (immediate-retry shape). -/
def SetVerified (s : DBState) (file : FileInfo) (fileID corrID : String) : StTrace Unit :=
  retryImmediate (fun _ t => setVerifiedProc t file fileID corrID) s

/-- Outer `GetFileStatus` (immediate-retry shape, read-only). -/
def GetFileStatus (s : DBState) (corrID : String) : StTrace String :=
  retryImmediate (fun _ t => (t, getFileStatus t corrID)) s

/-- Outer `GetHeader` (immediate-retry shape, read-only). -/
def GetHeader (s : DBState) (fileID : String) : StTrace (List Nat) :=
  retryImmediate (fun _ t => (t, getHeader t fileID)) s

/-- Outer `CheckAccessionIDExists` (back-off shape, read-only). -/
def CheckAccessionIDExists (s : DBState) (accessionID fileID : String) : StTrace String :=
  retryBackoff (fun _ t => (t, checkAccessionIDExists t accessionID fileID)) (fun _ => false) s

/-- Outer `SetAccessionID` (back-off shape). -/
def SetAccessionID (s : DBState) (accessionID fileID : String) : StTrace Unit :=
  retryBackoff (fun _ t => setAccessionID t accessionID fileID) (fun _ => false) s

/-- Outer `MapFilesToDataset` (back-off shape). -/
def MapFilesToDataset (s : DBState) (datasetID : String)
    (accessionIDs : List String) : StTrace Unit :=
  retryBackoff (fun _ t => mapFilesToDataset t datasetID accessionIDs) (fun _ => false) s

/-- Outer `UpdateDatasetEvent` (back-off shape). -/
def UpdateDatasetEvent (s : DBState) (datasetID status message : String) : StTrace Unit :=
  retryBackoff (fun _ t => updateDatasetEvent t datasetID status message) (fun _ => false) s

/-- Outer `AddKeyHash` (back-off shape, breaking early when the key hash is
already present). -/
def AddKeyHash (s : DBState) (keyHash keyDescription : String) : StTrace Unit :=
  retryBackoff (fun _ t => addKeyHash t keyHash keyDescription)
    (fun e => strContains e "key hash already exists") s

/-- Outer `GetUserFiles` (back-off shape, read-only). -/
def GetUserFiles (s : DBState) (userID : String) : StTrace (List SubmissionFileInfo) :=
  retryBackoff (fun _ t => (t, getUserFiles t userID)) (fun _ => false) s

/-! ### Concrete states used by the witnesses and counterexamples -/

/-- A log with two events sharing one correlation id. -/
def c3State : DBState :=
  { emptyState with
    fileEventLog :=
      [⟨0, "f1", "registered", "c1", "u", "", "", 0⟩,
       ⟨1, "f1", "uploaded", "c1", "u", "", "", 1⟩]
    nextLogId := 2 }

/-- A database with a single accessioned file. -/
def oneFileState : DBState :=
  { emptyState with
    files := [⟨"f1", "dummy", "/dummy/file10.c4gh", some "acc1", none, none, none, none, 0⟩] }

/-- The database `oneFileState` after its file was mapped into dataset `DS1`. -/
def mappedState : DBState :=
  { oneFileState with
    datasets := [⟨0, "DS1"⟩]
    fileDataset := [("f1", 0)]
    nextDatasetId := 1 }

/-- The empty database at schema version 3 (below the gate of
`RegisterFile`). -/
def v3State : DBState :=
  { emptyState with version := 3 }

/-- Three users with one file each; `User-A`'s file is mapped into a
dataset, the other two are not. -/
def c7State : DBState :=
  { emptyState with
    files :=
      [⟨"fa", "User-A", "/User-A/a.c4gh", some "accA", none, none, none, none, 0⟩,
       ⟨"fb", "User-B", "/User-B/b.c4gh", some "accB", none, none, none, none, 1⟩,
       ⟨"fc", "User-C", "/User-C/c.c4gh", some "accC", none, none, none, none, 2⟩]
    fileEventLog :=
      [⟨0, "fa", "uploaded", "ca", "User-A", "", "", 0⟩,
       ⟨1, "fb", "uploaded", "cb", "User-B", "", "", 1⟩,
       ⟨2, "fc", "uploaded", "cc", "User-C", "", "", 2⟩]
    datasets := [⟨0, "DS"⟩]
    fileDataset := [("fa", 0)]
    nextLogId := 3
    nextDatasetId := 1 }

/-! ### Lemmas about the two retry-loop shapes -/

theorem retryImmediateGo_spec {α : Type}
    (attempt : Nat → DBState → DBState × Except String α) :
    ∀ fuel count s prev, count + fuel = RetryTimes + 1 → 1 ≤ count →
      count ≤ RetryTimes →
      count ≤ (retryImmediateGo attempt fuel count s prev).attempts ∧
      (retryImmediateGo attempt fuel count s prev).attempts ≤ RetryTimes ∧
      (retryImmediateGo attempt fuel count s prev).sleeps = []
  | 0, count, s, prev => by
    intro hsum h1 hle
    simp [RetryTimes] at hsum hle
    omega
  | fuel + 1, count, s, prev => by
    intro hsum h1 hle
    rw [retryImmediateGo]
    by_cases hc : exceptIsErr prev ∧ count < RetryTimes
    · rw [if_pos hc]
      obtain ⟨-, hlt⟩ := hc
      have ih := retryImmediateGo_spec attempt fuel (count + 1)
        (attempt count s).1 (attempt count s).2 (by omega) (by omega) (by omega)
      exact ⟨by omega, ih.2.1, ih.2.2⟩
    · rw [if_neg hc]
      exact ⟨le_refl _, hle, rfl⟩

theorem retryImmediate_spec {α : Type}
    (attempt : Nat → DBState → DBState × Except String α) (s : DBState) :
    1 ≤ (retryImmediate attempt s).attempts ∧
    (retryImmediate attempt s).attempts ≤ RetryTimes ∧
    (retryImmediate attempt s).sleeps = [] := by
  have h := retryImmediateGo_spec attempt RetryTimes 1 (attempt 0 s).1 (attempt 0 s).2
    (by omega) (le_refl _) (by simp [RetryTimes])
  simpa [retryImmediate] using h

theorem retryImmediate_of_ok {α : Type}
    (attempt : Nat → DBState → DBState × Except String α) (s s' : DBState)
    (a : α) (h : attempt 0 s = (s', .ok a)) :
    retryImmediate attempt s = ⟨s', .ok a, 1, []⟩ := by
  rw [retryImmediate, h]
  rfl

theorem retryImmediateGo_fixed {α : Type}
    (attempt : Nat → DBState → DBState × Except String α) (e : String) :
    ∀ fuel count s, count + fuel = RetryTimes + 1 → 1 ≤ count →
      count ≤ RetryTimes → (∀ k, attempt k s = (s, .error e)) →
      retryImmediateGo attempt fuel count s (.error e) =
        ⟨s, .error e, RetryTimes, []⟩
  | 0, count, s => by
    intro hsum h1 hle _
    simp [RetryTimes] at hsum hle
    omega
  | fuel + 1, count, s => by
    intro hsum h1 hle hconst
    rw [retryImmediateGo]
    by_cases hlt : count < RetryTimes
    · rw [if_pos ⟨rfl, hlt⟩, hconst count]
      exact retryImmediateGo_fixed attempt e fuel (count + 1) s
        (by omega) (by omega) (by omega) hconst
    · rw [if_neg (by simp [hlt])]
      have : count = RetryTimes := by omega
      rw [this]

theorem retryImmediate_fixed_err {α : Type}
    (attempt : Nat → DBState → DBState × Except String α) (s : DBState)
    (e : String) (h : ∀ k, attempt k s = (s, .error e)) :
    retryImmediate attempt s = ⟨s, .error e, RetryTimes, []⟩ := by
  rw [retryImmediate, h]
  exact retryImmediateGo_fixed attempt e RetryTimes 1 s (by omega) (by omega)
    (by simp [RetryTimes]) h

theorem retryBackoffGo_spec {α : Type}
    (attempt : Nat → DBState → DBState × Except String α) (stop : String → Bool) :
    ∀ fuel count s prev sleeps, count + fuel = RetryTimes + 2 → 1 ≤ count →
      count ≤ RetryTimes + 1 →
      sleeps = (List.range' 1 (count - 1)).map (fun i => 2 ^ i) →
      (2 ≤ count → exceptIsErr prev = true) →
      ((count ≤ RetryTimes →
          count ≤ (retryBackoffGo attempt stop fuel count s prev sleeps).attempts) ∧
       (count = RetryTimes + 1 →
          (retryBackoffGo attempt stop fuel count s prev sleeps).attempts = RetryTimes) ∧
       (retryBackoffGo attempt stop fuel count s prev sleeps).attempts ≤ RetryTimes ∧
       ∃ m ≤ RetryTimes,
         (retryBackoffGo attempt stop fuel count s prev sleeps).sleeps =
           (List.range' 1 m).map (fun i => 2 ^ i) ∧
         (exceptIsOk (retryBackoffGo attempt stop fuel count s prev sleeps).result = true →
           m + 1 = (retryBackoffGo attempt stop fuel count s prev sleeps).attempts))
  | 0, count, s, prev, sleeps => by
    intro hsum h1 hle hsl hprev
    simp [RetryTimes] at hsum hle
    omega
  | fuel + 1, count, s, prev, sleeps => by
    intro hsum h1 hle hsl hprev
    rw [retryBackoffGo]
    by_cases hc : count ≤ RetryTimes
    · rw [if_pos hc]
      rcases hr : (attempt count s).2 with e | a
      · dsimp only
        by_cases hst : stop e = true
        · rw [if_pos hst]
          refine ⟨fun _ => le_refl _, fun hx => by dsimp only; omega,
            by dsimp only; omega, count - 1, by omega, hsl, ?_⟩
          simp [exceptIsOk]
        · rw [if_neg hst]
          have hsl' : sleeps ++ [2 ^ count] =
              (List.range' 1 (count + 1 - 1)).map (fun i => 2 ^ i) := by
            have hn : 1 + 1 * (count - 1) = count := by omega
            rw [(by omega : count + 1 - 1 = (count - 1) + 1), List.range'_concat, hn,
              List.map_append, ← hsl]
            simp
          have ih := retryBackoffGo_spec attempt stop fuel (count + 1)
            (attempt count s).1 (.error e) (sleeps ++ [2 ^ count])
            (by omega) (by omega) (by omega) hsl' (fun _ => rfl)
          refine ⟨fun hcr => ?_, fun hceq => by omega, ih.2.2.1, ih.2.2.2⟩
          by_cases hc1 : count + 1 ≤ RetryTimes
          · exact le_trans (by omega) (ih.1 hc1)
          · have hx : count + 1 = RetryTimes + 1 := by omega
            rw [ih.2.1 hx]
            omega
      · dsimp only
        exact ⟨fun _ => le_refl _, fun hx => by omega, hc, count - 1, by omega, hsl,
          fun _ => by show count - 1 + 1 = count; omega⟩
    · rw [if_neg hc]
      dsimp only
      have hc6 : count = RetryTimes + 1 := by omega
      refine ⟨fun hx => by omega, fun _ => by show count - 1 = RetryTimes; omega,
        by show count - 1 ≤ RetryTimes; omega,
        count - 1, by omega, hsl, fun hok => ?_⟩
      rcases prev with e | a
      · simp [exceptIsOk] at hok
      · simp [exceptIsErr] at hprev
        have hRT : RetryTimes = 5 := rfl
        omega

theorem retryBackoff_spec {α : Type}
    (attempt : Nat → DBState → DBState × Except String α) (stop : String → Bool)
    (s : DBState) :
    1 ≤ (retryBackoff attempt stop s).attempts ∧
    (retryBackoff attempt stop s).attempts ≤ RetryTimes ∧
    ∃ m ≤ RetryTimes,
      (retryBackoff attempt stop s).sleeps = (List.range' 1 m).map (fun i => 2 ^ i) ∧
      (exceptIsOk (retryBackoff attempt stop s).result = true →
        m + 1 = (retryBackoff attempt stop s).attempts) := by
  have h := retryBackoffGo_spec attempt stop (RetryTimes + 1) 1 s (.error "") []
    (by omega) (le_refl _) (by omega) (by simp) (fun _ => rfl)
  exact ⟨h.1 (by simp [RetryTimes]), h.2.2.1, h.2.2.2⟩

theorem retryBackoff_of_ok {α : Type}
    (attempt : Nat → DBState → DBState × Except String α) (stop : String → Bool)
    (s s' : DBState) (a : α) (h : attempt 1 s = (s', .ok a)) :
    retryBackoff attempt stop s = ⟨s', .ok a, 1, []⟩ := by
  rw [retryBackoff, (by rfl : RetryTimes + 1 = 5 + 1), retryBackoffGo, if_pos (by decide), h]

theorem retryBackoffGo_fixed {α : Type}
    (attempt : Nat → DBState → DBState × Except String α) (stop : String → Bool)
    (e : String) (hstop : stop e = false) :
    ∀ fuel count s prev sleeps, count + fuel = RetryTimes + 2 → 1 ≤ count →
      count ≤ RetryTimes + 1 → (count = RetryTimes + 1 → prev = .error e) →
      (∀ k, attempt k s = (s, .error e)) →
      retryBackoffGo attempt stop fuel count s prev sleeps =
        ⟨s, .error e, RetryTimes,
          sleeps ++ (List.range' count (RetryTimes + 1 - count)).map (fun i => 2 ^ i)⟩
  | 0, count, s, prev, sleeps => by
    intro hsum h1 hle _ _
    simp [RetryTimes] at hsum hle
    omega
  | fuel + 1, count, s, prev, sleeps => by
    intro hsum h1 hle hprev hconst
    rw [retryBackoffGo]
    by_cases hc : count ≤ RetryTimes
    · rw [if_pos hc, hconst count]
      dsimp only
      rw [if_neg (by simp [hstop])]
      rw [retryBackoffGo_fixed attempt stop e hstop fuel (count + 1) s
        (.error e) (sleeps ++ [2 ^ count]) (by omega) (by omega) (by omega)
        (fun _ => rfl) hconst]
      have hrange : (List.range' count (RetryTimes + 1 - count)).map (fun i => 2 ^ i) =
          2 ^ count :: (List.range' (count + 1) (RetryTimes - count)).map (fun i => 2 ^ i) := by
        rw [(by omega : RetryTimes + 1 - count = (RetryTimes - count) + 1), List.range'_succ]
        simp
      rw [hrange]
      simp
    · rw [if_neg hc]
      have hc6 : count = RetryTimes + 1 := by omega
      rw [hprev hc6, hc6]
      simp [RetryTimes]

theorem retryBackoff_fixed_err {α : Type}
    (attempt : Nat → DBState → DBState × Except String α) (stop : String → Bool)
    (s : DBState) (e : String) (h : ∀ k, attempt k s = (s, .error e))
    (hstop : stop e = false) :
    retryBackoff attempt stop s = ⟨s, .error e, RetryTimes, [2, 4, 8, 16, 32]⟩ := by
  rw [retryBackoff, retryBackoffGo_fixed attempt stop e hstop (RetryTimes + 1) 1 s
    (.error "") [] (by omega) (le_refl _) (by omega)
    (by intro hx; simp [RetryTimes] at hx) h]
  rfl

/-! ### The latest row of an ordered log fragment -/

theorem maxBy_of_sorted (key : FileEventRow → Nat) :
    ∀ l : List FileEventRow, l.Pairwise (fun a b => key a < key b) →
      maxBy key l = l.getLast?
  | [], _ => rfl
  | [r], _ => rfl
  | r :: x :: xs, hp => by
    have htail : (x :: xs).Pairwise (fun a b => key a < key b) := hp.of_cons
    have ih := maxBy_of_sorted key (x :: xs) htail
    have hne : (x :: xs) ≠ [] := by simp
    have hlast : (x :: xs).getLast? = some ((x :: xs).getLast hne) :=
      List.getLast?_eq_getLast_of_ne_nil hne
    have hmem : (x :: xs).getLast hne ∈ x :: xs := List.getLast_mem hne
    have hlt : key r < key ((x :: xs).getLast hne) :=
      (List.pairwise_cons.mp hp).1 _ hmem
    rw [maxBy, ih, hlast, List.getLast?_cons_cons, hlast]
    simp [hlt]

/-! ### C3: GetFileStatus returns the latest event -/

/-- C3: for every correlation id with at least one row in the file event log,
`GetFileStatus` returns the `event` of the most recently inserted row carrying
that correlation id (the last row of the log restricted to that correlation
id, when the log's serial ids grow in insertion order). -/
theorem getFileStatus_latest_event (s : DBState) (corrID : String)
    (hord : s.fileEventLog.Pairwise (fun a b => a.rid < b.rid))
    (hne : s.fileEventLog.filter (fun r => r.correlationId == corrID) ≠ []) :
    ∃ r, (s.fileEventLog.filter (fun r => r.correlationId == corrID)).getLast? = some r ∧
      (GetFileStatus s corrID).result = .ok r.event := by
  have hpf : (s.fileEventLog.filter (fun r => r.correlationId == corrID)).Pairwise
      (fun a b => a.rid < b.rid) := hord.filter _
  have hmax : maxBy (·.rid) (s.fileEventLog.filter (fun r => r.correlationId == corrID)) =
      (s.fileEventLog.filter (fun r => r.correlationId == corrID)).getLast? :=
    maxBy_of_sorted _ _ hpf
  have hlast : (s.fileEventLog.filter (fun r => r.correlationId == corrID)).getLast? =
      some ((s.fileEventLog.filter (fun r => r.correlationId == corrID)).getLast hne) :=
    List.getLast?_eq_getLast_of_ne_nil hne
  refine ⟨_, hlast, ?_⟩
  have hinner : getFileStatus s corrID =
      .ok ((s.fileEventLog.filter (fun r => r.correlationId == corrID)).getLast hne).event := by
    rw [getFileStatus, hmax, hlast]
  have houter := retryImmediate_of_ok (fun _ t => (t, getFileStatus t corrID)) s s
    ((s.fileEventLog.filter (fun r => r.correlationId == corrID)).getLast hne).event
    (by dsimp only; rw [hinner])
  rw [GetFileStatus, houter]

/-- Witness for C3, at a log holding a `registered` and then an `uploaded`
event for correlation id `c1`. -/
theorem getFileStatus_latest_event_witness :
    c3State.fileEventLog.Pairwise (fun a b => a.rid < b.rid) ∧
    c3State.fileEventLog.filter (fun r => r.correlationId == "c1") ≠ [] ∧
    ∃ r, (c3State.fileEventLog.filter (fun r => r.correlationId == "c1")).getLast? = some r ∧
      (GetFileStatus c3State "c1").result = .ok r.event :=
  ⟨by decide, by decide, getFileStatus_latest_event c3State "c1" (by decide) (by decide)⟩

/-! ### C6: header storage round-trips -/

theorem hexDigitVal_hexDigit (n : Nat) (h : n < 16) :
    hexDigitVal (hexDigit n) = some n := by
  interval_cases n <;> decide

theorem hexDecodeChars_encode : ∀ bs : List Nat, (∀ b ∈ bs, b < 256) →
    hexDecodeChars (bs.flatMap hexEncodeByte) = some bs
  | [], _ => rfl
  | b :: bs, h => by
    have hb : b < 256 := h b (by simp)
    have ih := hexDecodeChars_encode bs (fun x hx => h x (by simp [hx]))
    show hexDecodeChars
      (hexDigit (b / 16) :: hexDigit (b % 16) :: bs.flatMap hexEncodeByte) = some (b :: bs)
    rw [hexDecodeChars, hexDigitVal_hexDigit _ (by omega),
      hexDigitVal_hexDigit _ (Nat.mod_lt _ (by omega)), ih]
    have hdm : 16 * (b / 16) + b % 16 = b := by omega
    show some ((16 * (b / 16) + b % 16) :: bs) = some (b :: bs)
    rw [hdm]

theorem hexDecode_hexEncode (bs : List Nat) (h : ∀ b ∈ bs, b < 256) :
    hexDecode (hexEncode bs) = some bs :=
  hexDecodeChars_encode bs h

theorem findHeader_after_store :
    ∀ (files : List FileRow) (h : List Nat) (id : String),
      files.any (fun f => f.id == id) = true → (∀ b ∈ h, b < 256) →
      findHeader (files.map (fun f =>
        if f.id == id then { f with header := some (hexEncode h) } else f)) id = .ok h
  | [], h, id => by simp
  | f :: fs, h, id => by
    intro hA hbytes
    by_cases hid : f.id == id
    · rw [List.map_cons, if_pos hid, findHeader,
        List.find?_cons_of_pos _ (by simpa using hid)]
      simp [hexDecode_hexEncode h hbytes]
    · have hidf : (f.id == id) = false := by simpa using hid
      rw [List.map_cons, if_neg hid, findHeader,
        List.find?_cons_of_neg _ (by simp [hidf])]
      have hA' : fs.any (fun g => g.id == id) = true := by
        simpa [List.any_cons, hidf] using hA
      have hrec := findHeader_after_store fs h id hA' hbytes
      rw [findHeader] at hrec
      exact hrec

/-- C6: for every byte sequence and file id, once `StoreHeader` succeeds (the
header is persisted hex-encoded), `GetHeader` on the resulting state returns
exactly the stored bytes. -/
theorem storeHeader_getHeader_roundtrip (s : DBState) (h : List Nat) (id : String)
    (hbytes : ∀ b ∈ h, b < 256)
    (hok : (StoreHeader s h id).result = .ok ()) :
    (GetHeader (StoreHeader s h id).state id).result = .ok h := by
  by_cases hA : s.files.any (fun f => f.id == id)
  · have hinner : storeHeader s h id =
        ({ s with files := s.files.map (fun f =>
            if f.id == id then { f with header := some (hexEncode h) } else f) }, .ok ()) := by
      rw [storeHeader, if_pos hA]
    have houter := retryImmediate_of_ok (fun _ t => storeHeader t h id) s _ ()
      (by dsimp only; rw [hinner])
    rw [StoreHeader, houter]
    have hget : getHeader { s with files := s.files.map (fun f =>
        if f.id == id then { f with header := some (hexEncode h) } else f) } id = .ok h :=
      findHeader_after_store s.files h id (by simpa using hA) hbytes
    have houter2 := retryImmediate_of_ok (fun _ t => (t, getHeader t id)) _ _ h
      (by dsimp only; rw [hget])
    rw [GetHeader, houter2]
  · have hinner : ∀ k : Nat, (fun _ t => storeHeader t h id) k s =
        (s, Except.error "something went wrong with the query zero rows were changed") := by
      intro k
      dsimp only
      rw [storeHeader, if_neg hA]
    have houter := retryImmediate_fixed_err (fun _ t => storeHeader t h id) s _ hinner
    rw [StoreHeader] at hok
    rw [houter] at hok
    exact absurd hok (by simp)

/-- Witness for C6, storing the bytes `[0, 255, 16]` for file `f1`. -/
theorem storeHeader_getHeader_roundtrip_witness :
    (∀ b ∈ [0, 255, 16], b < 256) ∧
    (StoreHeader oneFileState [0, 255, 16] "f1").result = .ok () ∧
    (GetHeader (StoreHeader oneFileState [0, 255, 16] "f1").state "f1").result =
      .ok [0, 255, 16] :=
  ⟨by decide, by decide,
    storeHeader_getHeader_roundtrip oneFileState [0, 255, 16] "f1" (by decide) (by decide)⟩

/-! ### C4: CheckAccessionIDExists classification -/

/-- C4: `CheckAccessionIDExists` answers `"same"` exactly when the accession
is already the stable id of that very file, `"duplicate"` exactly when it is
the stable id of some file but not of this one (hence of another file), and
`""` exactly when no file carries it. -/
theorem checkAccessionIDExists_classification (s : DBState) (acc fid : String) :
    ∃ ret, (CheckAccessionIDExists s acc fid).result = .ok ret ∧
      (ret = "same" ↔ ∃ f ∈ s.files, f.stableId = some acc ∧ f.id = fid) ∧
      (ret = "duplicate" ↔
        (¬ ∃ f ∈ s.files, f.stableId = some acc ∧ f.id = fid) ∧
        ∃ f ∈ s.files, f.stableId = some acc) ∧
      (ret = "" ↔ ∀ f ∈ s.files, f.stableId ≠ some acc) := by
  have hex1 : (s.files.filter (fun f => f.stableId == some acc && f.id == fid)).length > 0 ↔
      ∃ f ∈ s.files, f.stableId = some acc ∧ f.id = fid := by
    simp [List.length_pos_iff_exists_mem, List.mem_filter]
  have hex2 : (s.files.filter (fun f => f.stableId == some acc)).length > 0 ↔
      ∃ f ∈ s.files, f.stableId = some acc := by
    simp [List.length_pos_iff_exists_mem, List.mem_filter]
  by_cases h1 : (s.files.filter (fun f => f.stableId == some acc && f.id == fid)).length > 0
  · refine ⟨"same", ?_, ?_, ?_, ?_⟩
    · have hinner : checkAccessionIDExists s acc fid = .ok "same" := by
        rw [checkAccessionIDExists, if_pos h1]
      rw [CheckAccessionIDExists, retryBackoff_of_ok _ _ s s "same"
        (by show (s, checkAccessionIDExists s acc fid) = _; rw [hinner])]
    · simp [hex1.mp h1]
    · simp only [hex1] at h1
      constructor
      · intro hd
        exact absurd hd (by decide)
      · intro hd
        exact absurd h1 hd.1
    · constructor
      · intro hd
        exact absurd hd (by decide)
      · intro hall
        rcases hex1.mp h1 with ⟨f, hf, hst, -⟩
        exact absurd hst (hall f hf)
  · by_cases h2 : (s.files.filter (fun f => f.stableId == some acc)).length > 0
    · refine ⟨"duplicate", ?_, ?_, ?_, ?_⟩
      · have hinner : checkAccessionIDExists s acc fid = .ok "duplicate" := by
          rw [checkAccessionIDExists, if_neg h1, if_pos h2]
        rw [CheckAccessionIDExists, retryBackoff_of_ok _ _ s s "duplicate"
          (by show (s, checkAccessionIDExists s acc fid) = _; rw [hinner])]
      · constructor
        · intro hd
          exact absurd hd (by decide)
        · intro hs
          exact absurd (hex1.mpr hs) h1
      · simp only [hex1] at h1
        simp [h1, hex2.mp h2]
      · constructor
        · intro hd
          exact absurd hd (by decide)
        · intro hall
          rcases hex2.mp h2 with ⟨f, hf, hst⟩
          exact absurd hst (hall f hf)
    · refine ⟨"", ?_, ?_, ?_, ?_⟩
      · have hinner : checkAccessionIDExists s acc fid = .ok "" := by
          rw [checkAccessionIDExists, if_neg h1, if_neg h2]
        rw [CheckAccessionIDExists, retryBackoff_of_ok _ _ s s ""
          (by show (s, checkAccessionIDExists s acc fid) = _; rw [hinner])]
      · constructor
        · intro hd
          exact absurd hd (by decide)
        · intro hs
          exact absurd (hex1.mpr hs) h1
      · constructor
        · intro hd
          exact absurd hd (by decide)
        · intro hs
          exact absurd (hex2.mpr hs.2) h2
      · simp only [hex2] at h2
        push_neg at h2
        constructor
        · intro _ f hf hst
          exact h2 f hf hst
        · intro _
          rfl

/-! ### C5: the zero-rows failure and how often it is retried -/

/-- Counterexample to C5 as stated: with no file `f1` in the database,
`SetAccessionID` fails each attempt with the zero-rows error, and the outer
loop performs 5 attempts (4 retries) before surfacing it — not the claimed
single retry (2 attempts). -/
theorem setAccessionID_zero_rows_retry_cex :
    (SetAccessionID emptyState "acc" "f1").result =
      .error "something went wrong with the query zero rows were changed" ∧
    (SetAccessionID emptyState "acc" "f1").attempts = 5 ∧
    (SetAccessionID emptyState "acc" "f1").attempts ≠ 2 := by
  refine ⟨?_, ?_, ?_⟩ <;> decide

/-- C5 (amended): whenever the `UPDATE` behind `setAccessionID` changes zero
rows (no file carries the id), every attempt fails with the error
"something went wrong with the query zero rows were changed", and the outer
loop surfaces that error only after `RetryTimes` = 5 attempts (the failure is
retried four times, not once), leaving the state unchanged. -/
theorem zero_rows_error_retried_to_retrytimes (s : DBState) (acc fid : String)
    (hmiss : ∀ f ∈ s.files, f.id ≠ fid) :
    (SetAccessionID s acc fid).result =
      .error "something went wrong with the query zero rows were changed" ∧
    (SetAccessionID s acc fid).attempts = RetryTimes ∧
    (SetAccessionID s acc fid).state = s := by
  have hany : s.files.any (fun f => f.id == fid) = false := by
    rw [List.any_eq_false]
    intro f hf
    simpa using hmiss f hf
  have hinner : ∀ k : Nat, (fun _ t => setAccessionID t acc fid) k s =
      (s, Except.error "something went wrong with the query zero rows were changed") := by
    intro k
    show setAccessionID s acc fid = _
    rw [setAccessionID, if_neg (by simp [hany])]
  have houter := retryBackoff_fixed_err (fun _ t => setAccessionID t acc fid)
    (fun _ => false) s _ hinner rfl
  rw [SetAccessionID, houter]
  exact ⟨rfl, rfl, rfl⟩

/-- Witness for the amended C5 at the empty database. -/
theorem zero_rows_error_retried_to_retrytimes_witness :
    (∀ f ∈ emptyState.files, f.id ≠ "f9") ∧
    (SetAccessionID emptyState "acc" "f9").result =
      .error "something went wrong with the query zero rows were changed" ∧
    (SetAccessionID emptyState "acc" "f9").attempts = RetryTimes ∧
    (SetAccessionID emptyState "acc" "f9").state = emptyState :=
  ⟨by decide, zero_rows_error_retried_to_retrytimes emptyState "acc" "f9" (by decide)⟩

/-! ### C2: the retry contract of the mutating methods -/

/-- Counterexample to C2 as stated: `StoreHeader` on a missing file id fails
all five attempts yet records no back-off sleeps at all — its loop shape
retries immediately, with no 2, 4, 8, 16, 32 second delays. -/
theorem storeHeader_retries_without_backoff_cex :
    (StoreHeader emptyState [1] "f1").attempts = 5 ∧
    (StoreHeader emptyState [1] "f1").sleeps = [] ∧
    exceptIsErr (StoreHeader emptyState [1] "f1").result = true := by
  refine ⟨?_, ?_, ?_⟩ <;> decide

/-- C2 (amended): every mutating method invokes its inner single-attempt
method between 1 and `RetryTimes` times and stops retrying as soon as an
attempt succeeds; but only the back-off-shaped methods (`SetAccessionID`,
`MapFilesToDataset`, `UpdateDatasetEvent`, `AddKeyHash`) sleep 2, 4, 8, 16, 32
seconds between attempts — `UpdateFileEventLog`, `StoreHeader`, `SetArchived`
and `SetVerified` use the immediate shape and never sleep. -/
theorem retry_contract_amended :
    (∀ (α : Type) (attempt : Nat → DBState → DBState × Except String α) (s : DBState),
        1 ≤ (retryImmediate attempt s).attempts ∧
        (retryImmediate attempt s).attempts ≤ RetryTimes ∧
        (retryImmediate attempt s).sleeps = []) ∧
    (∀ (α : Type) (attempt : Nat → DBState → DBState × Except String α)
        (stop : String → Bool) (s : DBState),
        1 ≤ (retryBackoff attempt stop s).attempts ∧
        (retryBackoff attempt stop s).attempts ≤ RetryTimes ∧
        ∃ m ≤ RetryTimes,
          (retryBackoff attempt stop s).sleeps = (List.range' 1 m).map (fun i => 2 ^ i) ∧
          (exceptIsOk (retryBackoff attempt stop s).result = true →
            m + 1 = (retryBackoff attempt stop s).attempts)) ∧
    (∀ s u ev c us de me, UpdateFileEventLog s u ev c us de me =
        retryImmediate (fun _ t => updateFileEventLog t u ev c us de me) s) ∧
    (∀ s h i, StoreHeader s h i = retryImmediate (fun _ t => storeHeader t h i) s) ∧
    (∀ s fi i c, SetArchived s fi i c =
        retryImmediate (fun _ t => setArchivedProc t fi i c) s) ∧
    (∀ s fi i c, SetVerified s fi i c =
        retryImmediate (fun _ t => setVerifiedProc t fi i c) s) ∧
    (∀ s a i, SetAccessionID s a i =
        retryBackoff (fun _ t => setAccessionID t a i) (fun _ => false) s) ∧
    (∀ s d accs, MapFilesToDataset s d accs =
        retryBackoff (fun _ t => mapFilesToDataset t d accs) (fun _ => false) s) ∧
    (∀ s d st me, UpdateDatasetEvent s d st me =
        retryBackoff (fun _ t => updateDatasetEvent t d st me) (fun _ => false) s) ∧
    (∀ s k d, AddKeyHash s k d = retryBackoff (fun _ t => addKeyHash t k d)
        (fun e => strContains e "key hash already exists") s) :=
  ⟨fun _ attempt s => retryImmediate_spec attempt s,
   fun _ attempt stop s => retryBackoff_spec attempt stop s,
   fun _ _ _ _ _ _ _ => rfl, fun _ _ _ => rfl, fun _ _ _ _ => rfl, fun _ _ _ _ => rfl,
   fun _ _ _ => rfl, fun _ _ _ => rfl, fun _ _ _ _ => rfl, fun _ _ _ => rfl⟩

/-- Witness for the amended C2 at concrete inner operations and states. -/
theorem retry_contract_amended_witness :
    (1 ≤ (retryImmediate (fun _ t => storeHeader t [1] "f1") oneFileState).attempts ∧
     (retryImmediate (fun _ t => storeHeader t [1] "f1") oneFileState).attempts ≤ RetryTimes ∧
     (retryImmediate (fun _ t => storeHeader t [1] "f1") oneFileState).sleeps = []) ∧
    (1 ≤ (retryBackoff (fun _ t => setAccessionID t "acc2" "f1") (fun _ => false)
        oneFileState).attempts ∧
     (retryBackoff (fun _ t => setAccessionID t "acc2" "f1") (fun _ => false)
        oneFileState).attempts ≤ RetryTimes ∧
     ∃ m ≤ RetryTimes,
       (retryBackoff (fun _ t => setAccessionID t "acc2" "f1") (fun _ => false)
          oneFileState).sleeps = (List.range' 1 m).map (fun i => 2 ^ i) ∧
       (exceptIsOk (retryBackoff (fun _ t => setAccessionID t "acc2" "f1") (fun _ => false)
            oneFileState).result = true →
         m + 1 = (retryBackoff (fun _ t => setAccessionID t "acc2" "f1") (fun _ => false)
            oneFileState).attempts)) :=
  ⟨retry_contract_amended.1 Unit (fun _ t => storeHeader t [1] "f1") oneFileState,
   retry_contract_amended.2.1 Unit (fun _ t => setAccessionID t "acc2" "f1")
     (fun _ => false) oneFileState⟩

/-! ### Lemmas about the mapping transaction -/

theorem insertMappingRows_append (fid : String) (dsID : String) :
    ∀ (datasets : List DatasetRow) (committed pending : List (String × Nat)),
      ∃ ext, insertMappingRows committed pending fid datasets dsID = pending ++ ext
  | [], committed, pending => ⟨[], by simp [insertMappingRows]⟩
  | d :: ds, committed, pending => by
    rw [insertMappingRows, List.foldl_cons]
    by_cases hc : d.stableId = dsID ∧ (fid, d.did) ∉ committed ++ pending
    · rw [if_pos hc]
      rcases insertMappingRows_append fid dsID ds committed (pending ++ [(fid, d.did)]) with
        ⟨ext, hext⟩
      rw [insertMappingRows] at hext
      exact ⟨(fid, d.did) :: ext, by rw [hext]; simp⟩
    · rw [if_neg hc]
      rcases insertMappingRows_append fid dsID ds committed pending with ⟨ext, hext⟩
      rw [insertMappingRows] at hext
      exact ⟨ext, hext⟩

theorem insertMappingRows_covers (fid : String) (dsID : String) :
    ∀ (datasets : List DatasetRow) (committed pending : List (String × Nat)),
      ∀ d ∈ datasets, d.stableId = dsID →
        (fid, d.did) ∈ committed ++ insertMappingRows committed pending fid datasets dsID
  | [], committed, pending => by simp
  | d' :: ds, committed, pending => by
    intro d hd hds
    rw [insertMappingRows, List.foldl_cons]
    rcases insertMappingRows_append fid dsID ds committed
      (if d'.stableId = dsID ∧ (fid, d'.did) ∉ committed ++ pending
       then pending ++ [(fid, d'.did)] else pending) with ⟨ext, hext⟩
    rw [insertMappingRows] at hext
    rcases List.mem_cons.mp hd with hd1 | hd1
    · subst hd1
      by_cases hc : d.stableId = dsID ∧ (fid, d.did) ∉ committed ++ pending
      · rw [if_pos hc] at hext ⊢
        rw [hext]
        simp
      · rw [if_neg hc] at hext ⊢
        rw [hext]
        have hin : (fid, d.did) ∈ committed ++ pending := by
          by_contra hno
          exact hc ⟨hds, hno⟩
        rcases List.mem_append.mp hin with h | h
        · simp [h]
        · simp [h]
    · exact insertMappingRows_covers fid dsID ds committed _ d hd1 hds

theorem insertMappingRows_noop (fid : String) (dsID : String) :
    ∀ (datasets : List DatasetRow) (committed pending : List (String × Nat)),
      (∀ d ∈ datasets, d.stableId = dsID → (fid, d.did) ∈ committed) →
      insertMappingRows committed pending fid datasets dsID = pending
  | [], committed, pending => by simp [insertMappingRows]
  | d :: ds, committed, pending => by
    intro hcov
    rw [insertMappingRows, List.foldl_cons]
    have hc : ¬(d.stableId = dsID ∧ (fid, d.did) ∉ committed ++ pending) := by
      rintro ⟨hds, hno⟩
      exact hno (List.mem_append.mpr (Or.inl (hcov d (by simp) hds)))
    rw [if_neg hc]
    have := insertMappingRows_noop fid dsID ds committed pending
      (fun d' hd' => hcov d' (by simp [hd']))
    rw [insertMappingRows] at this
    exact this

theorem mapLoop_ok (s1 : DBState) (dsID : String) :
    ∀ (accs : List String) (pending q : List (String × Nat)),
      mapLoop s1 dsID accs pending = .ok q →
      (∃ ext, q = pending ++ ext) ∧
      ∀ acc ∈ accs, ∃ f, s1.files.find? (fun g => g.stableId == some acc) = some f ∧
        ∀ d ∈ s1.datasets, d.stableId = dsID → (f.id, d.did) ∈ s1.fileDataset ++ q
  | [], pending, q => by
    intro hml
    rw [mapLoop] at hml
    refine ⟨⟨[], by simpa using (Except.ok.inj hml).symm⟩, by simp⟩
  | acc :: rest, pending, q => by
    intro hml
    rw [mapLoop] at hml
    rcases hf : s1.files.find? (fun g => g.stableId == some acc) with - | f
    · rw [hf] at hml
      exact absurd hml (by simp)
    · rw [hf] at hml
      have ih := mapLoop_ok s1 dsID rest
        (insertMappingRows s1.fileDataset pending f.id s1.datasets dsID) q hml
      rcases ih.1 with ⟨ext, hq⟩
      rcases insertMappingRows_append f.id dsID s1.datasets s1.fileDataset pending with
        ⟨ext1, hext1⟩
      constructor
      · exact ⟨ext1 ++ ext, by rw [hq, hext1, List.append_assoc]⟩
      · intro a ha
        rcases List.mem_cons.mp ha with ha1 | ha1
        · subst ha1
          refine ⟨f, hf, fun d hd hds => ?_⟩
          have hcov := insertMappingRows_covers f.id dsID s1.datasets s1.fileDataset
            pending d hd hds
          rcases List.mem_append.mp hcov with h | h
          · exact List.mem_append.mpr (Or.inl h)
          · refine List.mem_append.mpr (Or.inr ?_)
            rw [hq]
            exact List.mem_append.mpr (Or.inl h)
        · exact ih.2 a ha1

theorem mapLoop_noop (s' : DBState) (dsID : String) :
    ∀ accs : List String,
      (∀ acc ∈ accs, ∃ f, s'.files.find? (fun g => g.stableId == some acc) = some f ∧
        ∀ d ∈ s'.datasets, d.stableId = dsID → (f.id, d.did) ∈ s'.fileDataset) →
      mapLoop s' dsID accs [] = .ok []
  | [] => by
    intro _
    rw [mapLoop]
  | acc :: rest => by
    intro hcov
    rw [mapLoop]
    rcases hcov acc (by simp) with ⟨f, hf, hd⟩
    rw [hf]
    show mapLoop s' dsID rest (insertMappingRows s'.fileDataset [] f.id s'.datasets dsID) =
      Except.ok []
    rw [insertMappingRows_noop f.id dsID s'.datasets s'.fileDataset [] hd]
    exact mapLoop_noop s' dsID rest (fun a ha => hcov a (by simp [ha]))

theorem insertDatasetRow_files (s : DBState) (dsID : String) :
    (insertDatasetRow s dsID).files = s.files ∧
    (insertDatasetRow s dsID).fileDataset = s.fileDataset := by
  rw [insertDatasetRow]
  split <;> exact ⟨rfl, rfl⟩

theorem insertDatasetRow_has (s : DBState) (dsID : String) :
    (insertDatasetRow s dsID).datasets.any (fun d => d.stableId == dsID) = true := by
  rw [insertDatasetRow]
  by_cases h : s.datasets.any (fun d => d.stableId == dsID)
  · rw [if_pos h]
    exact h
  · rw [if_neg h]
    simp

theorem retryBackoff_step_err {α : Type}
    (attempt : Nat → DBState → DBState × Except String α) (stop : String → Bool)
    (s s2 : DBState) (e : String) (h1 : attempt 1 s = (s2, .error e))
    (hstop : stop e = false) (hconst : ∀ k, attempt k s2 = (s2, .error e)) :
    retryBackoff attempt stop s = ⟨s2, .error e, RetryTimes, [2, 4, 8, 16, 32]⟩ := by
  rw [retryBackoff, (by rfl : RetryTimes + 1 = 5 + 1), retryBackoffGo, if_pos (by decide), h1]
  dsimp only
  rw [if_neg (by simp [hstop])]
  rw [retryBackoffGo_fixed attempt stop e hstop 5 2 s2 (.error e) ([] ++ [2 ^ 1])
    (by decide) (by decide) (by decide) (by intro hx; simp [RetryTimes] at hx) hconst]
  rfl

/-! ### C9: re-mapping the same accessions is idempotent -/

/-- C9: when `mapFilesToDataset` succeeds, running it again with the same
dataset id and accession ids succeeds and leaves the state — the dataset rows
and the `(file_id, dataset_id)` mapping rows — exactly as the first call left
them, inserting nothing new. -/
theorem mapFilesToDataset_idempotent (s s' : DBState) (dsID : String)
    (accs : List String) (hfirst : mapFilesToDataset s dsID accs = (s', .ok ())) :
    mapFilesToDataset s' dsID accs = (s', .ok ()) := by
  rw [mapFilesToDataset] at hfirst
  rcases hml : mapLoop (insertDatasetRow s dsID) dsID accs [] with e | q
  · rw [hml] at hfirst
    exact absurd (congrArg Prod.snd hfirst) (by simp)
  · rw [hml] at hfirst
    have hs' : s' = { insertDatasetRow s dsID with
        fileDataset := (insertDatasetRow s dsID).fileDataset ++ q } :=
      (congrArg Prod.fst hfirst).symm
    have hfiles : s'.files = s.files := by
      rw [hs']
      exact (insertDatasetRow_files s dsID).1
    have hds : s'.datasets = (insertDatasetRow s dsID).datasets := by
      rw [hs']
    have hfd : s'.fileDataset = (insertDatasetRow s dsID).fileDataset ++ q := by
      rw [hs']
    have hcov := (mapLoop_ok (insertDatasetRow s dsID) dsID accs [] q hml).2
    have hs1files : (insertDatasetRow s dsID).files = s.files :=
      (insertDatasetRow_files s dsID).1
    have hins : insertDatasetRow s' dsID = s' := by
      rw [insertDatasetRow, if_pos (by rw [hds]; exact insertDatasetRow_has s dsID)]
    rw [mapFilesToDataset, hins]
    have hnoop : mapLoop s' dsID accs [] = .ok [] := by
      refine mapLoop_noop s' dsID accs (fun acc ha => ?_)
      rcases hcov acc ha with ⟨f, hf, hcd⟩
      refine ⟨f, ?_, fun d hd hdd => ?_⟩
      · rw [hfiles, ← hs1files]
        exact hf
      · rw [hfd]
        rw [hds] at hd
        have h1 := hcd d hd hdd
        rw [(insertDatasetRow_files s dsID).2] at h1 ⊢
        exact h1
    rw [hnoop]
    show ({ s' with fileDataset := s'.fileDataset ++ [] }, Except.ok ()) = (s', Except.ok ())
    rw [List.append_nil]

/-- Witness for C9: mapping accession `acc1` into dataset `DS1` twice. -/
theorem mapFilesToDataset_idempotent_witness :
    mapFilesToDataset oneFileState "DS1" ["acc1"] = (mappedState, .ok ()) ∧
    mapFilesToDataset mappedState "DS1" ["acc1"] = (mappedState, .ok ()) :=
  ⟨by decide, mapFilesToDataset_idempotent oneFileState mappedState "DS1" ["acc1"] (by decide)⟩

/-! ### C1: failure atomicity of MapFilesToDataset -/

/-- Counterexample to C1 as stated: a call whose accession lookup fails rolls
back the mapping rows, but the dataset row was inserted before the
transaction began, so after the failed call a new dataset row exists. -/
theorem mapFilesToDataset_failed_creates_dataset_row_cex :
    exceptIsErr (MapFilesToDataset oneFileState "DS1" ["nope"]).result = true ∧
    (MapFilesToDataset oneFileState "DS1" ["nope"]).state.fileDataset = [] ∧
    oneFileState.datasets = [] ∧
    (MapFilesToDataset oneFileState "DS1" ["nope"]).state.datasets = [⟨0, "DS1"⟩] := by
  refine ⟨?_, ?_, ?_, ?_⟩ <;> decide

/-- C1 (amended): the accession lookups and mapping inserts of
`mapFilesToDataset` run inside one transaction, so a failed call leaves the
`file_dataset` rows exactly as they were — but the dataset row is created
before the transaction and survives the failure: the state after a failed
call (of the single attempt and of the whole retrying method) is exactly
`insertDatasetRow` applied to the initial state.  A successful call maps
every listed accession's file to the dataset row. -/
theorem mapFilesToDataset_mappings_all_or_nothing (s : DBState) (dsID : String)
    (accs : List String) :
    (∀ e, (mapFilesToDataset s dsID accs).2 = .error e →
       (mapFilesToDataset s dsID accs).1.fileDataset = s.fileDataset ∧
       (mapFilesToDataset s dsID accs).1 = insertDatasetRow s dsID) ∧
    (∀ e, (MapFilesToDataset s dsID accs).result = .error e →
       (MapFilesToDataset s dsID accs).state.fileDataset = s.fileDataset ∧
       (MapFilesToDataset s dsID accs).state = insertDatasetRow s dsID) ∧
    ((mapFilesToDataset s dsID accs).2 = .ok () →
       ∀ acc ∈ accs, ∃ f, s.files.find? (fun g => g.stableId == some acc) = some f ∧
         ∀ d ∈ (insertDatasetRow s dsID).datasets, d.stableId = dsID →
           (f.id, d.did) ∈ (mapFilesToDataset s dsID accs).1.fileDataset) := by
  rcases hml : mapLoop (insertDatasetRow s dsID) dsID accs [] with e0 | q
  · have hinner : mapFilesToDataset s dsID accs = (insertDatasetRow s dsID, .error e0) := by
      rw [mapFilesToDataset, hml]
    have hstable : ∀ k : Nat, (fun _ t => mapFilesToDataset t dsID accs) k
        (insertDatasetRow s dsID) = (insertDatasetRow s dsID, .error e0) := by
      intro k
      show mapFilesToDataset (insertDatasetRow s dsID) dsID accs = _
      have hins : insertDatasetRow (insertDatasetRow s dsID) dsID = insertDatasetRow s dsID := by
        rw [insertDatasetRow, if_pos (insertDatasetRow_has s dsID)]
      rw [mapFilesToDataset, hins, hml]
    have houter := retryBackoff_step_err (fun _ t => mapFilesToDataset t dsID accs)
      (fun _ => false) s (insertDatasetRow s dsID) e0
      (by show mapFilesToDataset s dsID accs = _; rw [hinner]) rfl hstable
    refine ⟨fun e he => ?_, fun e he => ?_, fun hok => ?_⟩
    · rw [hinner]
      exact ⟨(insertDatasetRow_files s dsID).2, rfl⟩
    · rw [MapFilesToDataset, houter]
      exact ⟨(insertDatasetRow_files s dsID).2, rfl⟩
    · rw [hinner] at hok
      exact absurd hok (by simp)
  · have hinner : mapFilesToDataset s dsID accs =
        ({ insertDatasetRow s dsID with
            fileDataset := (insertDatasetRow s dsID).fileDataset ++ q }, .ok ()) := by
      rw [mapFilesToDataset, hml]
    refine ⟨fun e he => ?_, fun e he => ?_, fun _ => ?_⟩
    · rw [hinner] at he
      exact absurd he (by simp)
    · have houter := retryBackoff_of_ok (fun _ t => mapFilesToDataset t dsID accs)
        (fun _ => false) s _ ()
        (by show mapFilesToDataset s dsID accs = _; rw [hinner])
      rw [MapFilesToDataset, houter] at he
      exact absurd he (by simp)
    · intro acc ha
      rcases (mapLoop_ok (insertDatasetRow s dsID) dsID accs [] q hml).2 acc ha with
        ⟨f, hf, hcd⟩
      refine ⟨f, by rw [← (insertDatasetRow_files s dsID).1]; exact hf, fun d hd hds => ?_⟩
      rw [hinner]
      show (f.id, d.did) ∈ (insertDatasetRow s dsID).fileDataset ++ q
      exact hcd d hd hds

/-- Witness for the amended C1, at a failing call (unknown accession) and a
succeeding call. -/
theorem mapFilesToDataset_mappings_all_or_nothing_witness :
    ((mapFilesToDataset oneFileState "DS1" ["nope"]).2 =
        .error "sql: no rows in result set" ∧
     (mapFilesToDataset oneFileState "DS1" ["nope"]).1.fileDataset =
        oneFileState.fileDataset ∧
     (mapFilesToDataset oneFileState "DS1" ["nope"]).1 =
        insertDatasetRow oneFileState "DS1") ∧
    ((mapFilesToDataset oneFileState "DS1" ["acc1"]).2 = .ok () ∧
     ∀ acc ∈ ["acc1"], ∃ f,
       oneFileState.files.find? (fun g => g.stableId == some acc) = some f ∧
       ∀ d ∈ (insertDatasetRow oneFileState "DS1").datasets, d.stableId = "DS1" →
         (f.id, d.did) ∈ (mapFilesToDataset oneFileState "DS1" ["acc1"]).1.fileDataset) :=
  ⟨⟨by decide,
    (mapFilesToDataset_mappings_all_or_nothing oneFileState "DS1" ["nope"]).1
      "sql: no rows in result set" (by decide)⟩,
   ⟨by decide,
    (mapFilesToDataset_mappings_all_or_nothing oneFileState "DS1" ["acc1"]).2.2 (by decide)⟩⟩

/-! ### C8: the schema-version gate of RegisterFile -/

/-- C8: below schema version 4, `RegisterFile` returns an error and writes
nothing; from version 4 on it creates-or-updates the file row and appends a
`registered` event. -/
theorem registerFile_version_gate (s : DBState) (p u : String) :
    (s.version < 4 → RegisterFile s p u =
       (s, .error "database schema v4 required for RegisterFile()")) ∧
    (4 ≤ s.version → ∃ fid s', RegisterFile s p u = (s', .ok fid) ∧
       (∃ r, s'.fileEventLog = s.fileEventLog ++ [r] ∧
          r.event = "registered" ∧ r.fileId = fid) ∧
       ∃ f ∈ s'.files, f.id = fid ∧ f.submissionUser = u ∧ f.submissionFilePath = p) := by
  constructor
  · intro hv
    rw [RegisterFile, if_pos hv]
  · intro hv
    rw [RegisterFile, if_neg (by omega)]
    rcases hproc : registerFileProc s p u with ⟨fid, s2⟩
    refine ⟨fid, s2, rfl, ?_⟩
    rw [registerFileProc] at hproc
    rcases hfind : s.files.find? (fun f =>
        f.submissionFilePath == p && f.submissionUser == u) with - | f <;>
      rw [hfind] at hproc
    · obtain ⟨h1, h2⟩ := Prod.mk.inj hproc
      subst h1
      subst h2
      refine ⟨⟨_, rfl, rfl, rfl⟩, ?_⟩
      refine ⟨⟨"file-" ++ toString s.nextFileId, u, p, none, none, none, none, none,
        s.nextLogId⟩, ?_, rfl, rfl, rfl⟩
      show _ ∈ s.files ++ [_]
      simp
    · have hpred := List.find?_some hfind
      have hmem := List.mem_of_find?_eq_some hfind
      simp only [Bool.and_eq_true, beq_iff_eq] at hpred
      obtain ⟨h1, h2⟩ := Prod.mk.inj hproc
      subst h1
      subst h2
      exact ⟨⟨_, rfl, rfl, rfl⟩, ⟨f, hmem, rfl, hpred.2, hpred.1⟩⟩

/-- Witness for C8 at schema versions 3 and 4. -/
theorem registerFile_version_gate_witness :
    (v3State.version < 4 ∧ RegisterFile v3State "/p" "u" =
       (v3State, .error "database schema v4 required for RegisterFile()")) ∧
    (4 ≤ emptyState.version ∧ ∃ fid s', RegisterFile emptyState "/p" "u" = (s', .ok fid) ∧
       (∃ r, s'.fileEventLog = emptyState.fileEventLog ++ [r] ∧
          r.event = "registered" ∧ r.fileId = fid) ∧
       ∃ f ∈ s'.files, f.id = fid ∧ f.submissionUser = "u" ∧ f.submissionFilePath = "/p") :=
  ⟨⟨by decide, (registerFile_version_gate v3State "/p" "u").1 (by decide)⟩,
   ⟨by decide, (registerFile_version_gate emptyState "/p" "u").2 (by decide)⟩⟩

/-! ### C7 and C10: the admin listing queries -/

theorem danglingFD_false_of_fk (s : DBState)
    (hFK : ∀ m ∈ s.fileDataset, ∃ f ∈ s.files, f.id = m.1) :
    danglingFD s = false := by
  rw [danglingFD, List.any_eq_false]
  intro m hm
  rcases hFK m hm with ⟨f, hf, hid⟩
  simp only [Bool.not_eq_true', Bool.not_eq_false, List.any_eq_true]
  exact ⟨f, hf, by simp [hid]⟩

theorem scanRows_ok : ∀ rows : List (String × Option String × Nat),
    (∀ x ∈ rows, x.2.1 ≠ none) →
    ∃ l, scanRows rows = .ok l ∧
      ∀ fi, fi ∈ l ↔ ∃ x ∈ rows, ∃ ev, x.2.1 = some ev ∧ fi = ⟨x.1, ev, x.2.2⟩
  | [] => fun _ => ⟨[], rfl, by simp⟩
  | (p, oev, c) :: rest => fun h => by
    rcases oev with - | ev
    · exact (h (p, none, c) (by simp) rfl).elim
    · rcases scanRows_ok rest (fun x hx => h x (by simp [hx])) with ⟨l, hok, hmem⟩
      refine ⟨⟨p, ev, c⟩ :: l, ?_, ?_⟩
      · rw [scanRows, hok]
        rfl
      · intro fi
        simp only [List.mem_cons, hmem]
        constructor
        · rintro (rfl | ⟨x, hx, ev2, hev2, rfl⟩)
          · exact ⟨(p, some ev, c), by simp, ev, rfl, rfl⟩
          · exact ⟨x, by simp [hx], ev2, hev2, rfl⟩
        · rintro ⟨x, hx, ev2, hev2, rfl⟩
          rcases hx with rfl | hx2
          · left
            simp only at hev2
            rw [Option.some.inj hev2]
          · right
            exact ⟨x, hx2, ev2, hev2, rfl⟩

/-- C7: `GetUserFiles` returns exactly the user's files that are in no
dataset, each annotated with the event of its latest event-log row; a file
appearing in `file_dataset` is never in the result (every returned entry
stems from an unmapped file). -/
theorem getUserFiles_excludes_dataset_files (s : DBState) (user : String)
    (hFK : ∀ m ∈ s.fileDataset, ∃ f ∈ s.files, f.id = m.1)
    (hEv : ∀ f ∈ s.files, f.submissionUser = user →
      (∀ m ∈ s.fileDataset, m.1 ≠ f.id) →
      (latestEventRow s f.id).isSome = true) :
    ∃ l, (GetUserFiles s user).result = .ok l ∧
      (∀ fi ∈ l, ∃ f ∈ s.files, f.submissionUser = user ∧
        (∀ m ∈ s.fileDataset, m.1 ≠ f.id) ∧
        ∃ r, latestEventRow s f.id = some r ∧
          fi = ⟨f.submissionFilePath, r.event, f.createdAt⟩) ∧
      (∀ f ∈ s.files, f.submissionUser = user →
        (∀ m ∈ s.fileDataset, m.1 ≠ f.id) →
        ∃ r, latestEventRow s f.id = some r ∧
          (⟨f.submissionFilePath, r.event, f.createdAt⟩ : SubmissionFileInfo) ∈ l) := by
  have hd := danglingFD_false_of_fk s hFK
  have hP : ∀ f : FileRow,
      (f.submissionUser == user && !(s.fileDataset.any (fun m => m.1 == f.id))) = true ↔
      (f.submissionUser = user ∧ ∀ m ∈ s.fileDataset, m.1 ≠ f.id) := by
    intro f
    simp [List.any_eq_true]
  have hrows : ∀ x ∈ (s.files.filter (fun f =>
      f.submissionUser == user && !(s.fileDataset.any (fun m => m.1 == f.id)))).map
      (fun f => (f.submissionFilePath, (latestEventRow s f.id).map (·.event), f.createdAt)),
      x.2.1 ≠ none := by
    intro x hx
    rcases List.mem_map.mp hx with ⟨f, hfmem, rfl⟩
    rcases List.mem_filter.mp hfmem with ⟨hfin, hfp⟩
    rcases (hP f).mp hfp with ⟨hu, hnm⟩
    rcases Option.isSome_iff_exists.mp (hEv f hfin hu hnm) with ⟨r, hr⟩
    simp [hr]
  rcases scanRows_ok _ hrows with ⟨l, hok, hmem⟩
  have hinner : getUserFiles s user = .ok l := by
    rw [getUserFiles, if_neg (by simp [hd]), hok]
  have houter := retryBackoff_of_ok (fun _ t => (t, getUserFiles t user)) (fun _ => false)
    s s l (by show (s, getUserFiles s user) = _; rw [hinner])
  refine ⟨l, by rw [GetUserFiles, houter], ?_, ?_⟩
  · intro fi hfi
    rcases (hmem fi).mp hfi with ⟨x, hx, ev, hev, rfl⟩
    rcases List.mem_map.mp hx with ⟨f, hfmem, rfl⟩
    rcases List.mem_filter.mp hfmem with ⟨hfin, hfp⟩
    rcases (hP f).mp hfp with ⟨hu, hnm⟩
    simp only at hev
    rcases Option.map_eq_some'.mp hev with ⟨r, hr, hrev⟩
    exact ⟨f, hfin, hu, hnm, r, hr, by rw [hrev]⟩
  · intro f hfin hu hnm
    rcases Option.isSome_iff_exists.mp (hEv f hfin hu hnm) with ⟨r, hr⟩
    refine ⟨r, hr, ?_⟩
    refine (hmem _).mpr ⟨(f.submissionFilePath, (latestEventRow s f.id).map (·.event),
      f.createdAt), ?_, r.event, by simp [hr], rfl⟩
    exact List.mem_map.mpr ⟨f, List.mem_filter.mpr ⟨hfin, (hP f).mpr ⟨hu, hnm⟩⟩, rfl⟩

/-- Witness for C7 at `c7State`, user `User-B`. -/
theorem getUserFiles_excludes_dataset_files_witness :
    (∀ m ∈ c7State.fileDataset, ∃ f ∈ c7State.files, f.id = m.1) ∧
    (∀ f ∈ c7State.files, f.submissionUser = "User-B" →
      (∀ m ∈ c7State.fileDataset, m.1 ≠ f.id) →
      (latestEventRow c7State f.id).isSome = true) ∧
    ∃ l, (GetUserFiles c7State "User-B").result = .ok l ∧
      (∀ fi ∈ l, ∃ f ∈ c7State.files, f.submissionUser = "User-B" ∧
        (∀ m ∈ c7State.fileDataset, m.1 ≠ f.id) ∧
        ∃ r, latestEventRow c7State f.id = some r ∧
          fi = ⟨f.submissionFilePath, r.event, f.createdAt⟩) ∧
      (∀ f ∈ c7State.files, f.submissionUser = "User-B" →
        (∀ m ∈ c7State.fileDataset, m.1 ≠ f.id) →
        ∃ r, latestEventRow c7State f.id = some r ∧
          (⟨f.submissionFilePath, r.event, f.createdAt⟩ : SubmissionFileInfo) ∈ l) :=
  ⟨by decide, by decide,
   getUserFiles_excludes_dataset_files c7State "User-B" (by decide) (by decide)⟩

theorem charListLeb_true_iff : ∀ as bs : List Char,
    charListLeb as bs = true ↔ ¬ List.Lex (· < ·) bs as
  | [], [] => by
    rw [charListLeb]
    exact ⟨fun _ h => (nomatch h), fun _ => rfl⟩
  | [], b :: bs => by
    rw [charListLeb]
    exact ⟨fun _ h => (nomatch h), fun _ => rfl⟩
  | a :: as, [] => by
    rw [charListLeb]
    exact ⟨fun h => (nomatch h), fun h => absurd List.Lex.nil h⟩
  | a :: as, b :: bs => by
    rcases lt_trichotomy a b with hab | hab | hab
    · rw [charListLeb, if_pos hab]
      refine ⟨fun _ h => ?_, fun _ => rfl⟩
      cases h with
      | cons h2 => exact absurd hab (lt_irrefl _)
      | rel h2 => exact absurd hab (lt_asymm h2)
    · subst hab
      rw [charListLeb, if_neg (lt_irrefl _), if_neg (lt_irrefl _)]
      rw [charListLeb_true_iff as bs]
      constructor
      · intro h hl
        cases hl with
        | cons h2 => exact h h2
        | rel h2 => exact absurd h2 (lt_irrefl _)
      · intro h hl
        exact h (List.Lex.cons hl)
    · rw [charListLeb, if_neg (lt_asymm hab), if_pos hab]
      exact ⟨fun h => (nomatch h), fun h => absurd (List.Lex.rel hab) h⟩

theorem strLeb_true_iff (a b : String) : strLeb a b = true ↔ a ≤ b := by
  rw [strLeb, charListLeb_true_iff]
  constructor
  · intro h hba
    exact h (String.lt_iff_toList_lt.mp hba)
  · intro h hlex
    exact h (String.lt_iff_toList_lt.mpr hlex)

/-- C10: `ListActiveUsers` returns the distinct users owning at least one
file that is in no dataset, sorted ascending, without duplicates. -/
theorem listActiveUsers_sorted_distinct_unmapped (s : DBState)
    (hFK : ∀ m ∈ s.fileDataset, ∃ f ∈ s.files, f.id = m.1) :
    ∃ l, ListActiveUsers s = .ok l ∧ l.Sorted (· ≤ ·) ∧ l.Nodup ∧
      ∀ u, u ∈ l ↔ ∃ f ∈ s.files, f.submissionUser = u ∧
        ∀ m ∈ s.fileDataset, m.1 ≠ f.id := by
  have hd := danglingFD_false_of_fk s hFK
  haveI iTotal : IsTotal String (fun a b => strLeb a b = true) := ⟨fun a b => by
    rcases le_total a b with h | h
    · exact Or.inl ((strLeb_true_iff a b).mpr h)
    · exact Or.inr ((strLeb_true_iff b a).mpr h)⟩
  haveI iTrans : IsTrans String (fun a b => strLeb a b = true) := ⟨fun a b c hab hbc =>
    (strLeb_true_iff a c).mpr
      (le_trans ((strLeb_true_iff a b).mp hab) ((strLeb_true_iff b c).mp hbc))⟩
  refine ⟨List.insertionSort (fun a b => strLeb a b = true)
    (((s.files.filter (fun f =>
        !(s.fileDataset.any (fun m => m.1 == f.id)))).map (·.submissionUser)).dedup),
    ?_, ?_, ?_, ?_⟩
  · rw [ListActiveUsers, if_neg (by simp [hd])]
  · exact (List.sorted_insertionSort _ _).imp (fun h => (strLeb_true_iff _ _).mp h)
  · exact ((List.perm_insertionSort _ _).symm).nodup (List.nodup_dedup _)
  · intro u
    rw [List.mem_insertionSort, List.mem_dedup]
    constructor
    · intro hu
      rcases List.mem_map.mp hu with ⟨f, hfmem, rfl⟩
      rcases List.mem_filter.mp hfmem with ⟨hfin, hfp⟩
      refine ⟨f, hfin, rfl, ?_⟩
      intro m hm
      simp only [Bool.not_eq_true', List.any_eq_false] at hfp
      simpa using hfp m hm
    · rintro ⟨f, hfin, rfl, hnm⟩
      refine List.mem_map.mpr ⟨f, List.mem_filter.mpr ⟨hfin, ?_⟩, rfl⟩
      simp only [Bool.not_eq_true', List.any_eq_false]
      intro m hm
      simpa using hnm m hm

/-- Witness for C10 at `c7State`: the one mapped user disappears and the
remaining users come back sorted. -/
theorem listActiveUsers_sorted_distinct_unmapped_witness :
    (∀ m ∈ c7State.fileDataset, ∃ f ∈ c7State.files, f.id = m.1) ∧
    (∃ l, ListActiveUsers c7State = .ok l ∧ l.Sorted (· ≤ ·) ∧ l.Nodup ∧
      ∀ u, u ∈ l ↔ ∃ f ∈ c7State.files, f.submissionUser = u ∧
        ∀ m ∈ c7State.fileDataset, m.1 ≠ f.id) ∧
    ListActiveUsers c7State = .ok ["User-B", "User-C"] :=
  ⟨by decide, listActiveUsers_sorted_distinct_unmapped c7State (by decide), by decide⟩
